import Mathlib

/-!
Verification of the hwk-loadplan order-normalization pipeline.

Shallow embedding of the Python sources `parse_loadplan.py`,
`create_v6_dashboard.py` (the generated JS delay rules) and
`scripts/generate_consolidated.py`.  Cells coming out of the spreadsheet
reader are modelled as `Cell` (missing / string / pandas Timestamp);
Python `float()` is modelled over exact rationals (the numeric literals
appearing in the claims are all exactly representable in binary64, so
truncation results agree with CPython); Python `str.strip` / `str.upper`
are modelled for ASCII text.
-/

namespace LoadPlan

/-- ASCII decimal digit character for a digit value. -/
def digitChar (d : Nat) : Char := Char.ofNat (48 + d)

/-- Whitespace characters removed by Python `str.strip()`. -/
def isSpaceChar (c : Char) : Bool :=
  c = ' ' || c = '\t' || c = '\n' || c = '\r' || c = '\x0b' || c = '\x0c'

/-- Drop leading and trailing whitespace from a character list. -/
def trimChars (cs : List Char) : List Char :=
  ((cs.dropWhile isSpaceChar).reverse.dropWhile isSpaceChar).reverse

/-- Python `str.strip()` (ASCII whitespace). -/
def pyStrip (s : String) : String := ⟨trimChars s.data⟩

/-- ASCII uppercase of one character, as Python `str.upper()` does for ASCII. -/
def asciiUpper (c : Char) : Char :=
  if 'a' ≤ c ∧ c ≤ 'z' then Char.ofNat (c.toNat - 32) else c

/-- ASCII lowercase of one character. -/
def asciiLower (c : Char) : Char :=
  if 'A' ≤ c ∧ c ≤ 'Z' then Char.ofNat (c.toNat + 32) else c

/-- Python `str.upper()` (ASCII). -/
def pyUpper (s : String) : String := ⟨s.data.map asciiUpper⟩

/-- Whether the first list is an initial segment of the second. -/
def startsWith : List Char → List Char → Bool
  | [], _ => true
  | _ :: _, [] => false
  | a :: as, b :: bs => a = b && startsWith as bs

/-- Whether `needle` occurs as a contiguous sublist of `hay`. -/
def listContains (needle : List Char) : List Char → Bool
  | [] => needle.isEmpty
  | c :: rest => startsWith needle (c :: rest) || listContains needle rest

/-- Python substring test `needle in hay`. -/
def strContains (hay needle : String) : Bool := listContains needle.data hay.data

/-- Python string `<` : lexicographic comparison by code point. -/
def pyStrLtChars : List Char → List Char → Bool
  | _, [] => false
  | [], _ :: _ => true
  | a :: as, b :: bs => if a < b then true else if b < a then false else pyStrLtChars as bs

/-- Python string comparison `s < t`. -/
def pyStrLt (s t : String) : Bool := pyStrLtChars s.data t.data

/-- Split a character list into its maximal run of leading digits and the rest. -/
def splitDigits : List Char → List Char × List Char
  | [] => ([], [])
  | c :: cs =>
    if c.isDigit then
      let (d, r) := splitDigits cs
      (c :: d, r)
    else ([], c :: cs)

/-- Numeric value of a most-significant-first digit list. -/
def digitsToNat (ds : List Char) : Nat :=
  ds.foldl (fun a c => 10 * a + (c.toNat - 48)) 0

/-- `n` printed in exactly `k` decimal digits, zero padded (for `n < 10 ^ k`). -/
def padNum : Nat → Nat → List Char
  | 0, _ => []
  | k + 1, n => digitChar (n / 10 ^ k) :: padNum k (n % 10 ^ k)

/-- Canonical `YYYY-MM-DD` text, as produced by the parser's f-strings. -/
def fmtYMD (y m d : Nat) : String :=
  ⟨padNum 4 y ++ '-' :: (padNum 2 m ++ '-' :: padNum 2 d)⟩

/-- A raw spreadsheet cell as the parser sees it: missing (`None` / float NaN,
which `pandas.isna` reports and whose downstream handling coincides), a text
value, or a pandas `Timestamp` (printed by `str()` as `YYYY-MM-DD 00:00:00`). -/
inductive Cell where
  | none : Cell
  | str : String → Cell
  | timestamp : Nat → Nat → Nat → Cell
deriving DecidableEq, Repr

/-- Python `str(value)` on a cell (`str(nan) = "nan"`). -/
def cellStr : Cell → String
  | Cell.none => "nan"
  | Cell.str s => s
  | Cell.timestamp y m d => fmtYMD y m d ++ " 00:00:00"

/-- Python truthiness of a cell value. -/
def cellTruthy : Cell → Bool
  | Cell.none => false
  | Cell.str s => s ≠ ""
  | Cell.timestamp _ _ _ => true

/-- `pandas.notna` on a cell value. -/
def cellNotna : Cell → Bool
  | Cell.none => false
  | _ => true

/-- Result of CPython `float(str)`: a finite value (modelled exactly as a
rational), an infinity, or NaN.  Hexadecimal forms and digit-group
underscores are not modelled; no claim depends on them. -/
inductive PyFloat where
  | finite : Rat → PyFloat
  | inf : PyFloat
  | neginf : PyFloat
  | nan : PyFloat
deriving DecidableEq, Repr

/-- Negate a parsed float (for a leading minus sign). -/
def PyFloat.negate : PyFloat → PyFloat
  | PyFloat.finite x => PyFloat.finite (-x)
  | PyFloat.inf => PyFloat.neginf
  | PyFloat.neginf => PyFloat.inf
  | PyFloat.nan => PyFloat.nan

/-- Exponent digits (after `e` and an optional sign) ending the literal;
the mantissa is carried as an unreduced fraction `num / den`. -/
def applyExponent (num den : Nat) (negExp : Bool) (ds : List Char) : Option Rat :=
  let (es, r) := splitDigits ds
  if es.isEmpty || !r.isEmpty then Option.none
  else if negExp then some (mkRat num (den * 10 ^ digitsToNat es))
  else some (mkRat (num * 10 ^ digitsToNat es) den)

/-- What may follow the mantissa of a float literal: the end of the string or
an exponent part. -/
def afterMantissa (num den : Nat) : List Char → Option Rat
  | [] => some (mkRat num den)
  | c :: rest =>
    if c = 'e' ∨ c = 'E' then
      match rest with
      | '+' :: ds => applyExponent num den false ds
      | '-' :: ds => applyExponent num den true ds
      | ds => applyExponent num den false ds
    else Option.none

/-- Mantissa of a float literal: digits with an optional single point,
requiring at least one digit.  Returns an unreduced fraction `num / den`
and the unread rest. -/
def parseMantissa (cs : List Char) : Option (Nat × Nat × List Char) :=
  let (ip, r1) := splitDigits cs
  match r1 with
  | '.' :: r2 =>
    let (fp, r3) := splitDigits r2
    if ip.isEmpty && fp.isEmpty then Option.none
    else some (digitsToNat ip * 10 ^ fp.length + digitsToNat fp, 10 ^ fp.length, r3)
  | _ => if ip.isEmpty then Option.none else some (digitsToNat ip, 1, r1)

/-- Unsigned part of a float literal, including the `inf` / `infinity` /
`nan` spellings CPython accepts (case-insensitive). -/
def pyFloatCore (cs : List Char) : Option PyFloat :=
  let lower := cs.map asciiLower
  if lower = "inf".data ∨ lower = "infinity".data then some PyFloat.inf
  else if lower = "nan".data then some PyFloat.nan
  else
    match parseMantissa cs with
    | some (num, den, rest) => (afterMantissa num den rest).map PyFloat.finite
    | Option.none => Option.none

/-- CPython `float(s)` on an already-stripped string: `some` on success,
`none` when a `ValueError` is raised. -/
def pyFloat? (s : String) : Option PyFloat :=
  match s.data with
  | '+' :: cs => pyFloatCore cs
  | '-' :: cs => (pyFloatCore cs).map PyFloat.negate
  | cs => pyFloatCore cs

/-- Python `int()` applied to a finite float: truncation toward zero. -/
def ratTrunc (x : Rat) : Int :=
  if 0 ≤ x.num then ((x.num.toNat / x.den : Nat) : Int)
  else -(((-x.num).toNat / x.den : Nat) : Int)

/-- The finite float value of a cell's stripped text, when `float()` accepts
it and the result is finite. -/
def cellFloat : Cell → Option Rat
  | c =>
    match pyFloat? (pyStrip (cellStr c)) with
    | some (PyFloat.finite x) => some x
    | _ => Option.none

/-- Placeholder tokens treated as "no data" throughout `parse_loadplan.py`. -/
def placeholders : List String := ["00:00:00", "#N/A", "nan", "NaN", "None"]

/-- Matches `^\d{1,2}/\d{1,2}$`, returning the two numbers. -/
def matchMDslash (cs : List Char) : Option (Nat × Nat) :=
  let (ms, r1) := splitDigits cs
  if 1 ≤ ms.length ∧ ms.length ≤ 2 then
    match r1 with
    | '/' :: r2 =>
      let (ds, r3) := splitDigits r2
      if 1 ≤ ds.length ∧ ds.length ≤ 2 ∧ r3 = [] then
        some (digitsToNat ms, digitsToNat ds)
      else Option.none
    | _ => Option.none
  else Option.none

/-- Matches `^\d{4}\.\d{1,2}\.\d{1,2}$`, returning year, month, day. -/
def matchYMDdot (cs : List Char) : Option (Nat × Nat × Nat) :=
  let (ys, r1) := splitDigits cs
  if ys.length = 4 then
    match r1 with
    | '.' :: r2 =>
      let (ms, r3) := splitDigits r2
      if 1 ≤ ms.length ∧ ms.length ≤ 2 then
        match r3 with
        | '.' :: r4 =>
          let (ds, r5) := splitDigits r4
          if 1 ≤ ds.length ∧ ds.length ≤ 2 ∧ r5 = [] then
            some (digitsToNat ys, digitsToNat ms, digitsToNat ds)
          else Option.none
        | _ => Option.none
      else Option.none
    | _ => Option.none
  else Option.none

/-- Matches `^\d{4}-\d{1,2}-\d{1,2}$`, returning year, month, day. -/
def matchYMDdash (cs : List Char) : Option (Nat × Nat × Nat) :=
  let (ys, r1) := splitDigits cs
  if ys.length = 4 then
    match r1 with
    | '-' :: r2 =>
      let (ms, r3) := splitDigits r2
      if 1 ≤ ms.length ∧ ms.length ≤ 2 then
        match r3 with
        | '-' :: r4 =>
          let (ds, r5) := splitDigits r4
          if 1 ≤ ds.length ∧ ds.length ≤ 2 ∧ r5 = [] then
            some (digitsToNat ys, digitsToNat ms, digitsToNat ds)
          else Option.none
        | _ => Option.none
      else Option.none
    | _ => Option.none
  else Option.none

/-- Matches `^\d{1,2}-\d{1,2}$`. -/
def matchMDdash (cs : List Char) : Bool :=
  let (ms, r1) := splitDigits cs
  if 1 ≤ ms.length ∧ ms.length ≤ 2 then
    match r1 with
    | '-' :: r2 =>
      let (ds, r3) := splitDigits r2
      decide (1 ≤ ds.length ∧ ds.length ≤ 2 ∧ r3 = [])
    | _ => false
  else false

/-- Keyword markers checked by the cell classifiers (`INHOUSE`, `NO HAPPO`,
`OK`, `RACHGIA` vendor names, …). -/
def dateKeywords : List String := ["INHOUSE", "HAPPO", "OK", "RACH"]

/-- `is_date_format` from `parse_loadplan.py`. -/
def is_date_format (value : Cell) : Bool :=
  match value with
  | Cell.none => false
  | _ =>
    let val_str := pyStrip (cellStr value)
    if val_str = "" ∨ placeholders.contains val_str then false
    else if dateKeywords.any (fun k => strContains (pyUpper val_str) k) then false
    else if (matchMDslash val_str.data).isSome ∨ (matchYMDdot val_str.data).isSome ∨
        (matchYMDdash val_str.data).isSome ∨ matchMDdash val_str.data then true
    else
      match value with
      | Cell.timestamp _ _ _ => true
      | _ => false

/-- `is_numeric` from `parse_loadplan.py`. -/
def is_numeric (value : Cell) : Bool :=
  match value with
  | Cell.none => false
  | _ =>
    let val_str := pyStrip (cellStr value)
    if val_str = "" ∨ placeholders.contains val_str then false
    else if ["INHOUSE", "HAPPO", "OK", "RACH", "/"].any
        (fun k => strContains (pyUpper val_str) k) then false
    else (pyFloat? val_str).isSome

/-- `parse_date_to_string` from `parse_loadplan.py` (called with the default
`default_year = 2025` everywhere).  `none` models Python `None`. -/
def parse_date_to_string (value : Cell) : Option String :=
  match value with
  | Cell.none => Option.none
  | Cell.timestamp y m d => some (fmtYMD y m d)
  | Cell.str s =>
    let val_str := pyStrip s
    match matchMDslash val_str.data with
    | some (mo, da) => some (fmtYMD (if 10 ≤ mo then 2025 else 2026) mo da)
    | Option.none =>
      match matchYMDdot val_str.data with
      | some (y, mo, da) => some (fmtYMD y mo da)
      | Option.none =>
        match matchYMDdash val_str.data with
        | some (y, mo, da) => some (fmtYMD y mo da)
        | Option.none => some val_str

/-- `get_year_month` from `parse_loadplan.py`: the `YYYY-MM` prefix of a date
string, when present. -/
def get_year_month (s : String) : Option String :=
  if s = "" then Option.none
  else
    match s.data with
    | a :: b :: c :: d :: '-' :: e :: f :: _ =>
      if [a, b, c, d, e, f].all Char.isDigit then some ⟨[a, b, c, d, '-', e, f]⟩
      else Option.none
    | _ => Option.none

/-- `parse_sdd` from `parse_loadplan.py`: prefer the current SDD cell, then
the original; skip placeholders; date-shaped values are normalized, other
present values are returned as trimmed text. -/
def parse_sdd (original current : Cell) : Option String :=
  let tryOne : Cell → Option String := fun v =>
    if cellNotna v then
      let vs := pyStrip (cellStr v)
      if vs ≠ "" ∧ ¬ ["00:00:00", "#N/A", "nan"].contains vs then
        if is_date_format v then parse_date_to_string v else some vs
      else Option.none
    else Option.none
  match tryOne current with
  | some s => some s
  | Option.none => tryOne original

/-- The per-stage record built by `parse_bal_column`: the dict keys
`completed`, `pending`, `status`, `expected_date`, plus the optional
`note` (INHOUSE branch) and `raw_value` (unknown branch) keys. -/
structure StageStatus where
  completed : Int
  pending : Int
  status : String
  expected_date : Option String
  note : Option String
  raw_value : Option String
deriving DecidableEq, Repr

/-- `parse_bal_column` from `parse_loadplan.py`.  The quantity argument is
the integer every caller passes (`qty`).  The result is `none` exactly when
the Python function raises (an `OverflowError` from `int(float('inf'))`,
which its `except (ValueError, TypeError)` does not catch); a NaN float
raises `ValueError` inside the guarded block and falls through to the
unknown branch. -/
def parse_bal_column (value : Cell) (qty : Int) : Option StageStatus :=
  match value with
  | Cell.none =>
    some ⟨0, qty, "pending", Option.none, Option.none, Option.none⟩
  | _ =>
    let val_str := pyStrip (cellStr value)
    if val_str = "" ∨ placeholders.contains val_str then
      some ⟨0, qty, "pending", Option.none, Option.none, Option.none⟩
    else if strContains (pyUpper val_str) "INHOUSE" then
      some ⟨qty, 0, "completed", Option.none, some "INHOUSE", Option.none⟩
    else if is_date_format value then
      some ⟨qty, 0, "completed", parse_date_to_string value, Option.none, Option.none⟩
    else if is_numeric value then
      match pyFloat? val_str with
      | some (PyFloat.finite x) =>
        let remaining := ratTrunc x
        let status :=
          if remaining = 0 then "completed"
          else if qty ≤ remaining then "pending"
          else "partial"
        some ⟨max 0 (qty - remaining), remaining, status, Option.none, Option.none, Option.none⟩
      | some PyFloat.nan =>
        some ⟨0, qty, "unknown", Option.none, Option.none, some val_str⟩
      | some PyFloat.inf => Option.none
      | some PyFloat.neginf => Option.none
      | Option.none =>
        some ⟨0, qty, "unknown", Option.none, Option.none, some val_str⟩
    else
      some ⟨0, qty, "unknown", Option.none, Option.none, some val_str⟩

/-- Non-numeric placeholders rejected by `is_valid_quantity`. -/
def invalid_quantity_values : List String :=
  ["Q.ty", "MRP.Qty", "Qty", "qty", "nan", "NaN", "None", "",
   "NY", "NO", "N/A", "#N/A", "TBD", "-", "Intertek"]

/-- `is_valid_quantity` from `parse_loadplan.py`: the stripped text is not a
known placeholder and `float()` of it is greater than zero. -/
def is_valid_quantity (value : Cell) : Bool :=
  match value with
  | Cell.none => false
  | _ =>
    let val_str := pyStrip (cellStr value)
    if invalid_quantity_values.contains val_str then false
    else
      match pyFloat? val_str with
      | some (PyFloat.finite x) => decide (0 < x)
      | some PyFloat.inf => true
      | _ => false

/-- Header-label tokens used to skip repeated header rows. -/
def header_keywords : List String :=
  ["Q.ty", "MRP.Qty", "Dest", "Season", "Model", "Article",
   "Color", "Unit", "UNIT", "Qty", "SDD", "CRD", "No.", "NO."]

/-- The cells of one spreadsheet row that the normalizer reads, already
projected through the factory's column mapping (positional indexing by the
schema is modelled by named access). -/
structure RawRow where
  quantity : Cell
  unit : Cell
  model : Cell
  destination : Cell
  crd : Cell
  sdd_original : Cell
  sdd_current : Cell
  code04 : Cell
deriving DecidableEq, Repr

/-- `is_header_row`: the quantity, model or destination cell holds a known
header label. -/
def is_header_row (r : RawRow) : Bool :=
  [r.quantity, r.model, r.destination].any
    (fun c => header_keywords.contains (pyStrip (cellStr c)))

/-- The fields of the normalized order record that the verified claims
read. -/
structure Order where
  factory : String
  unit : String
  model : String
  destination : String
  quantity : Int
  crd : String
  crdYearMonth : String
  sddValue : String
  code04 : Option String
deriving DecidableEq, Repr

/-- `int(float(str(value).strip()))`: `none` when the conversion raises and
the surrounding row-level `except` skips the row. -/
def pyIntOfCell (c : Cell) : Option Int :=
  match pyFloat? (pyStrip (cellStr c)) with
  | some (PyFloat.finite x) => some (ratTrunc x)
  | _ => Option.none

/-- The `str(x).strip() if pd.notna(x) else ''` idiom of the row loop. -/
def cellStrOrEmpty (c : Cell) : String :=
  if cellNotna c then pyStrip (cellStr c) else ""

/-- The row-normalization loop body of `parse_factory_file` (lines 427-503
of `parse_loadplan.py`), restricted to the fields in `Order`: header skip,
quantity validation and conversion, subtotal skip, destination
auto-correction, CRD / SDD / code04 resolution.  `none` models every way
the row fails to emit a record. -/
def normalize_row (factory : String) (r : RawRow) : Option Order :=
  if is_header_row r then Option.none
  else if ¬ is_valid_quantity r.quantity then Option.none
  else
    match pyIntOfCell r.quantity with
    | Option.none => Option.none
    | some qty =>
      let unit_str := cellStrOrEmpty r.unit
      let model_str := cellStrOrEmpty r.model
      if unit_str = "" ∧ model_str = "" then Option.none
      else
        let dest0 := cellStrOrEmpty r.destination
        let dest := if dest0 = "" ∨ ["nan", "None", "#N/A"].contains dest0 then "Unknown" else dest0
        let crd :=
          if cellTruthy r.crd ∧ pyStrip (cellStr r.crd) = "00:00:00" then ""
          else if is_date_format r.crd then (parse_date_to_string r.crd).getD ""
          else cellStrOrEmpty r.crd
        let sdd_curr :=
          if cellTruthy r.sdd_current ∧ pyStrip (cellStr r.sdd_current) = "00:00:00" then Cell.none
          else r.sdd_current
        let sdd_orig :=
          if cellTruthy r.sdd_original ∧ pyStrip (cellStr r.sdd_original) = "00:00:00" then Cell.none
          else r.sdd_original
        let code04 :=
          if cellNotna r.code04 ∧ ¬ ["nan", "-", ""].contains (pyStrip (cellStr r.code04)) then
            some (pyStrip (cellStr r.code04))
          else Option.none
        some
          { factory := factory
            unit := unit_str
            model := model_str
            destination := dest
            quantity := qty
            crd := crd
            crdYearMonth := (get_year_month crd).getD ""
            sddValue := (parse_sdd sdd_orig sdd_curr).getD ""
            code04 := code04 }

/-- `COLUMNS_A` from `parse_loadplan.py` (Python dict as an association
list). -/
def COLUMNS_A : List (String × Nat) :=
  [("unit", 0), ("season", 1), ("prod_lt", 3), ("coop", 4), ("crd", 5),
   ("sdd_original", 6), ("sdd_current", 7), ("code04", 8), ("model", 9),
   ("article", 10), ("color", 11), ("gd", 12), ("sales_order", 13),
   ("destination", 14), ("event", 15), ("quantity", 17), ("mrp_qty", 18),
   ("mrp_date", 19), ("setp", 20), ("intertek", 25), ("osc_material", 26),
   ("main_material", 27), ("outsourcing_out_bal", 37), ("outsourcing_in_bal", 38),
   ("osc_vendor", 39), ("s_cut_bal", 40), ("pre_sew_bal", 41),
   ("sew_input_bal", 42), ("sew_prod_scan", 43), ("sew_bal", 44),
   ("outsole_vendor", 48), ("s_fit_bal", 50), ("ass_bal", 51),
   ("wh_return_fac", 53), ("wh_in_bal", 54), ("wh_out_bal", 55),
   ("pkg_type", 56), ("inspection", 61)]

/-- `COLUMNS_B` from `parse_loadplan.py`. -/
def COLUMNS_B : List (String × Nat) :=
  [("unit", 0), ("season", 1), ("prod_lt", 3), ("coop", 4), ("crd", 5),
   ("sdd_original", 6), ("sdd_current", 7), ("code04", 8), ("model", 9),
   ("article", 10), ("color", 11), ("gd", 12), ("sales_order", 13),
   ("destination", 14), ("event", 15), ("quantity", 17), ("mrp_qty", 18),
   ("mrp_date", 19), ("setp", 20), ("intertek", 24), ("osc_material", 26),
   ("main_material", 27), ("outsourcing_out_bal", 37), ("outsourcing_in_bal", 38),
   ("osc_vendor", 39), ("s_cut_bal", 40), ("pre_sew_bal", 41),
   ("sew_input_bal", 42), ("sew_prod_scan", 43), ("sew_bal", 44),
   ("outsole_vendor", 47), ("s_fit_bal", 49), ("ass_bal", 50),
   ("wh_return_fac", 52), ("wh_in_bal", 53), ("wh_out_bal", 54),
   ("pkg_type", 55), ("inspection", 60)]

/-- `COLUMNS_C` from `parse_loadplan.py`. -/
def COLUMNS_C : List (String × Nat) :=
  [("unit", 0), ("season", 1), ("prod_lt", 3), ("coop", 4), ("crd", 6),
   ("sdd_original", 7), ("sdd_current", 8), ("code04", 9), ("model", 11),
   ("article", 12), ("color", 14), ("gd", 15), ("sales_order", 16),
   ("destination", 17), ("intertek", 18), ("event", 19), ("quantity", 21),
   ("mrp_qty", 22), ("mrp_date", 23), ("setp", 24), ("osc_material", 40),
   ("main_material", 41), ("outsourcing_out_bal", 50), ("outsourcing_in_bal", 51),
   ("osc_vendor", 52), ("s_cut_bal", 53), ("pre_sew_bal", 54),
   ("sew_input_bal", 55), ("sew_prod_scan", 56), ("sew_bal", 57),
   ("outsole_vendor", 61), ("s_fit_bal", 64), ("ass_bal", 65),
   ("wh_return_fac", 67), ("wh_in_bal", 68), ("wh_out_bal", 69),
   ("pkg_type", 70), ("inspection", 75)]

/-- `COLUMNS_D` from `parse_loadplan.py`. -/
def COLUMNS_D : List (String × Nat) :=
  [("unit", 0), ("season", 1), ("prod_lt", 2), ("coop", 3), ("crd", 5),
   ("sdd_original", 6), ("sdd_current", 7), ("code04", 8), ("model", 10),
   ("article", 11), ("color", 13), ("gd", 14), ("sales_order", 15),
   ("destination", 16), ("intertek", 17), ("event", 18), ("quantity", 20),
   ("mrp_qty", 21), ("mrp_date", 22), ("setp", 23), ("osc_material", 39),
   ("main_material", 40), ("outsourcing_out_bal", 49), ("outsourcing_in_bal", 50),
   ("osc_vendor", 51), ("s_cut_bal", 52), ("pre_sew_bal", 53),
   ("sew_input_bal", 54), ("sew_prod_scan", 55), ("sew_bal", 56),
   ("outsole_vendor", 60), ("s_fit_bal", 62), ("ass_bal", 63),
   ("wh_return_fac", 65), ("wh_in_bal", 66), ("wh_out_bal", 67),
   ("pkg_type", 68), ("inspection", 73)]

/-- The schema selection of `parse_factory_file` (lines 415-425): the four
known factories, with `COLUMNS_A` as the silent default for every other
identifier. -/
def select_columns (factory : String) : List (String × Nat) :=
  if factory = "A" then COLUMNS_A
  else if factory = "B" then COLUMNS_B
  else if factory = "C" then COLUMNS_C
  else if factory = "D" then COLUMNS_D
  else COLUMNS_A

/-- Gregorian leap year. -/
def isLeap (y : Nat) : Bool := (y % 4 = 0 ∧ y % 100 ≠ 0) ∨ y % 400 = 0

/-- Length of a month (1-12) for a given leap flag. -/
def monthLen (leap : Bool) (m : Nat) : Nat :=
  if m = 2 then (if leap then 29 else 28)
  else if m = 4 ∨ m = 6 ∨ m = 9 ∨ m = 11 then 30
  else 31

/-- Days in the months strictly before month `m` of a year. -/
def daysBeforeMonth (leap : Bool) (m : Nat) : Nat :=
  (List.range (m - 1)).foldl (fun a i => a + monthLen leap (i + 1)) 0

/-- Days in the years strictly before year `y` (proleptic Gregorian,
year 1 onward). -/
def daysBeforeYear (y : Nat) : Nat :=
  365 * (y - 1) + (y - 1) / 4 - (y - 1) / 100 + (y - 1) / 400

/-- Ordinal day number of a civil date; differences of day numbers are the
day differences the dashboard computes from millisecond timestamps. -/
def dayNumber (y m d : Nat) : Nat :=
  daysBeforeYear y + daysBeforeMonth (isLeap y) m + (d - 1)

/-- A calendar date the JS `Date` parser accepts as valid. -/
def validDate (y m d : Nat) : Prop :=
  1 ≤ y ∧ y ≤ 9999 ∧ 1 ≤ m ∧ m ≤ 12 ∧ 1 ≤ d ∧ d ≤ monthLen (isLeap y) m

instance (y m d : Nat) : Decidable (validDate y m d) := by
  unfold validDate; infer_instance

/-- The record fields read by the two delay-rule implementations: the
dashboard JS functions (`new_isDelayed` / `new_isWarning` in
`create_v6_dashboard.py`) read `crd`, `sddValue`, `code04`,
`production.wh_out.completed` and `quantity`; the report generator's
`is_delayed_record` reads `crd`, `sddValue` and `code04`. -/
structure DashRecord where
  crd : String
  sddValue : String
  code04 : Option String
  whOutCompleted : Int
  quantity : Int
deriving DecidableEq, Repr

/-- Truthiness of the serialized `code04` field, identical in Python
(`not code04`) and JS (`if (d.code04)`): null/None and the empty string are
falsy. -/
def optTruthy : Option String → Bool
  | Option.none => false
  | some s => s ≠ ""

/-- The JS `s.replace(/\./g, '-')` global single-character replacement. -/
def dotToDash (s : String) : String :=
  ⟨s.data.map (fun c => if c = '.' then '-' else c)⟩

/-- Modelled JS `new Date(s)` restricted to the dash-separated
year-month-day shapes the pipeline produces: a `\d{4}-\d{1,2}-\d{1,2}`
string naming a valid calendar date yields its day number; anything else is
an Invalid Date (`none`), whose comparisons are all false. -/
def jsDate? (s : String) : Option Nat :=
  match matchYMDdash s.data with
  | some (y, m, d) => if validDate y m d then some (dayNumber y m d) else Option.none
  | Option.none => Option.none

/-- `new_isDelayed` from `create_v6_dashboard.py` (the v6 dashboard's
`isDelayed`): SDD strictly later than CRD, gated on both dates being
present and not the zero-time placeholder, warehouse-out not fully shipped,
and no code04 override. -/
def new_isDelayed (d : DashRecord) : Bool :=
  if d.sddValue = "" ∨ d.crd = "" ∨ d.sddValue = "00:00:00" ∨ d.crd = "00:00:00" then false
  else if d.quantity ≤ d.whOutCompleted then false
  else if optTruthy d.code04 then false
  else
    match jsDate? (dotToDash d.sddValue), jsDate? (dotToDash d.crd) with
    | some s, some c => decide (c < s)
    | _, _ => false

/-- `new_isWarning` from `create_v6_dashboard.py` (the v6 dashboard's
`isWarning`): not delayed, same presence and shipment gates, and CRD at
most three days after SDD. -/
def new_isWarning (d : DashRecord) : Bool :=
  if d.sddValue = "" ∨ d.crd = "" ∨ d.sddValue = "00:00:00" ∨ d.crd = "00:00:00" then false
  else if d.quantity ≤ d.whOutCompleted then false
  else if new_isDelayed d then false
  else
    match jsDate? (dotToDash d.sddValue), jsDate? (dotToDash d.crd) with
    | some s, some c => decide (0 ≤ (c : Int) - (s : Int) ∧ (c : Int) - (s : Int) ≤ 3)
    | _, _ => false

/-- The tri-state classification derived from the two dashboard predicates. -/
def classifyDelay (d : DashRecord) : String :=
  if new_isDelayed d then "delayed"
  else if new_isWarning d then "warning"
  else "on_time"

/-- `is_delayed_record` from `scripts/generate_consolidated.py`: both date
strings non-empty, SDD strictly greater than CRD as Python strings, and no
code04 override.  (The guarded `TypeError`/`ValueError` cannot occur on
string fields.) -/
def is_delayed_record (r : DashRecord) : Bool :=
  if r.crd ≠ "" ∧ r.sddValue ≠ "" then
    pyStrLt r.crd r.sddValue && ! optTruthy r.code04
  else false

/-! ## Helper lemmas -/

/-- A warning verdict always rules the delayed verdict out, because
`new_isWarning` tests `isDelayed` before comparing the dates. -/
theorem warning_imp_not_delayed (d : DashRecord) :
    new_isWarning d = true → new_isDelayed d = false := by
  intro h
  cases hD : new_isDelayed d with
  | false => rfl
  | true =>
    exfalso
    unfold new_isWarning at h
    rw [hD] at h
    split at h
    · exact Bool.false_ne_true h
    · split at h
      · exact Bool.false_ne_true h
      · simp at h

/-! ## Claims -/

/-- C6: the delay classification is mutually exclusive and exhaustive —
for every record exactly one of delayed / warning / on-time holds, and
`classifyDelay` reports that one. -/
theorem C6_classification_exclusive_exhaustive (d : DashRecord) :
    (new_isDelayed d = true ∧ new_isWarning d = false ∧ classifyDelay d = "delayed") ∨
    (new_isDelayed d = false ∧ new_isWarning d = true ∧ classifyDelay d = "warning") ∨
    (new_isDelayed d = false ∧ new_isWarning d = false ∧ classifyDelay d = "on_time") := by
  cases hW : new_isWarning d with
  | true =>
    have hD := warning_imp_not_delayed d hW
    exact Or.inr (Or.inl ⟨hD, rfl, by simp [classifyDelay, hD, hW]⟩)
  | false =>
    cases hD : new_isDelayed d with
    | true => exact Or.inl ⟨rfl, rfl, by simp [classifyDelay, hD]⟩
    | false => exact Or.inr (Or.inr ⟨rfl, rfl, by simp [classifyDelay, hD, hW]⟩)

/-- C7 counterexample: invoking the normalizer with the unknown factory
identifier `"Z"` does not fail — the schema selection silently yields
factory A's column mapping, identical to the schema used for factory `"A"`
itself. -/
theorem C7_counterexample_unknown_factory_defaults :
    select_columns "Z" = COLUMNS_A ∧ select_columns "Z" = select_columns "A" := by
  constructor <;> rfl

/-- C7 (amended): every factory identifier other than A, B, C, D silently
falls back to the factory A column schema; no error is raised. -/
theorem C7_amended_unknown_factory_falls_back (f : String)
    (hA : f ≠ "A") (hB : f ≠ "B") (hC : f ≠ "C") (hD : f ≠ "D") :
    select_columns f = COLUMNS_A := by
  unfold select_columns
  rw [if_neg hA, if_neg hB, if_neg hC, if_neg hD]

/-- C7 witness: the amended fallback behaviour at the concrete unknown
identifier `"Z"`. -/
theorem C7_amended_witness : select_columns "Z" = COLUMNS_A :=
  C7_amended_unknown_factory_falls_back "Z" (by decide) (by decide) (by decide) (by decide)

/-- C4: the dashboard's delay rule returns true exactly when both dates are
present and date-shaped (not the zero-time placeholder), warehouse-out is
not fully completed, the code04 override is absent (falsy), and the SDD
date is strictly later than the CRD date. -/
theorem C4_delayed_iff (d : DashRecord) :
    new_isDelayed d = true ↔
      (d.sddValue ≠ "" ∧ d.crd ≠ "" ∧ d.sddValue ≠ "00:00:00" ∧ d.crd ≠ "00:00:00") ∧
      d.whOutCompleted < d.quantity ∧
      optTruthy d.code04 = false ∧
      (∃ s c, jsDate? (dotToDash d.sddValue) = some s ∧
        jsDate? (dotToDash d.crd) = some c ∧ c < s) := by
  unfold new_isDelayed
  split
  next h1 =>
    apply iff_of_false Bool.false_ne_true
    rintro ⟨⟨a, b, c, e⟩, -⟩
    rcases h1 with h | h | h | h <;> contradiction
  next h1 =>
    push_neg at h1
    split
    next h2 =>
      apply iff_of_false Bool.false_ne_true
      rintro ⟨-, hlt, -⟩
      omega
    next h2 =>
      push_neg at h2
      split
      next h3 =>
        apply iff_of_false Bool.false_ne_true
        rintro ⟨-, -, h4, -⟩
        rw [h3] at h4
        exact (Bool.false_ne_true h4.symm)
      next h3 =>
        rw [Bool.not_eq_true] at h3
        rcases hs : jsDate? (dotToDash d.sddValue) with _ | s <;>
          rcases hc : jsDate? (dotToDash d.crd) with _ | c <;>
            simp only [hs, hc]
        · apply iff_of_false Bool.false_ne_true
          rintro ⟨-, -, -, s', c', hs', -⟩
          exact Option.noConfusion hs'
        · apply iff_of_false Bool.false_ne_true
          rintro ⟨-, -, -, s', c', hs', -⟩
          exact Option.noConfusion hs'
        · apply iff_of_false Bool.false_ne_true
          rintro ⟨-, -, -, s', c', hs', hc', -⟩
          exact Option.noConfusion hc'
        · simp only [decide_eq_true_eq]
          constructor
          · intro hlt
            exact ⟨⟨h1.1, h1.2.1, h1.2.2.1, h1.2.2.2⟩, h2, h3,
              s, c, rfl, rfl, hlt⟩
          · rintro ⟨-, -, -, s', c', hs', hc', hlt⟩
            cases hs'
            cases hc'
            exact hlt

/-- C5: the dashboard's warning rule returns true exactly when the record is
not delayed, both dates are present and date-shaped, warehouse-out is not
fully completed, and CRD minus SDD is between zero and three days; in
particular an order with SDD equal to CRD, no override and warehouse-out
incomplete is a warning. -/
theorem C5_warning_iff :
    (∀ d : DashRecord, new_isWarning d = true ↔
      new_isDelayed d = false ∧
      (d.sddValue ≠ "" ∧ d.crd ≠ "" ∧ d.sddValue ≠ "00:00:00" ∧ d.crd ≠ "00:00:00") ∧
      d.whOutCompleted < d.quantity ∧
      (∃ s c, jsDate? (dotToDash d.sddValue) = some s ∧
        jsDate? (dotToDash d.crd) = some c ∧
        0 ≤ (c : Int) - (s : Int) ∧ (c : Int) - (s : Int) ≤ 3)) ∧
    new_isWarning ⟨"2025-12-20", "2025-12-20", Option.none, 0, 50⟩ = true := by
  constructor
  · intro d
    unfold new_isWarning
    split
    next h1 =>
      apply iff_of_false Bool.false_ne_true
      rintro ⟨-, ⟨a, b, c, e⟩, -⟩
      rcases h1 with h | h | h | h <;> contradiction
    next h1 =>
      push_neg at h1
      split
      next h2 =>
        apply iff_of_false Bool.false_ne_true
        rintro ⟨-, -, hlt, -⟩
        omega
      next h2 =>
        push_neg at h2
        split
        next h3 =>
          apply iff_of_false Bool.false_ne_true
          rintro ⟨h4, -⟩
          rw [h3] at h4
          exact (Bool.false_ne_true h4.symm)
        next h3 =>
          rw [Bool.not_eq_true] at h3
          rcases hs : jsDate? (dotToDash d.sddValue) with _ | s <;>
            rcases hc : jsDate? (dotToDash d.crd) with _ | c <;>
              simp only [hs, hc]
          · apply iff_of_false Bool.false_ne_true
            rintro ⟨-, -, -, s', c', hs', -⟩
            exact Option.noConfusion hs'
          · apply iff_of_false Bool.false_ne_true
            rintro ⟨-, -, -, s', c', hs', -⟩
            exact Option.noConfusion hs'
          · apply iff_of_false Bool.false_ne_true
            rintro ⟨-, -, -, s', c', hs', hc', -⟩
            exact Option.noConfusion hc'
          · simp only [decide_eq_true_eq]
            constructor
            · intro hd
              exact ⟨h3, ⟨h1.1, h1.2.1, h1.2.2.1, h1.2.2.2⟩, h2,
                s, c, rfl, rfl, hd.1, hd.2⟩
            · rintro ⟨-, -, -, s', c', hs', hc', hd1, hd2⟩
              cases hs'
              cases hc'
              exact ⟨hd1, hd2⟩
  · decide

/-- C10: a non-placeholder stage cell whose text contains `HAPPO`, `OK` or
`RACH` but not `INHOUSE` resolves to status `unknown` with nothing
completed, the full quantity pending and the raw value preserved; a cell
containing `INHOUSE` is the fully-complete opaque marker. -/
theorem C10_opaque_marker_cells :
    (∀ (q : Int) (s : String),
      (strContains (pyUpper (pyStrip s)) "HAPPO" = true ∨
       strContains (pyUpper (pyStrip s)) "OK" = true ∨
       strContains (pyUpper (pyStrip s)) "RACH" = true) →
      strContains (pyUpper (pyStrip s)) "INHOUSE" = false →
      placeholders.contains (pyStrip s) = false →
      parse_bal_column (Cell.str s) q =
        some ⟨0, q, "unknown", Option.none, Option.none, some (pyStrip s)⟩) ∧
    (∀ (q : Int) (s : String),
      strContains (pyUpper (pyStrip s)) "INHOUSE" = true →
      parse_bal_column (Cell.str s) q =
        some ⟨q, 0, "completed", Option.none, some "INHOUSE", Option.none⟩) := by
  constructor
  · intro q s hk hni hnp
    have hne : pyStrip s ≠ "" := by
      intro h0
      rw [h0] at hk
      rcases hk with hx | hx | hx <;> exact absurd hx (by decide)
    have hmem : pyStrip s ∉ placeholders := by simpa using hnp
    have hdf : is_date_format (Cell.str s) = false := by
      simp only [is_date_format, cellStr]
      rw [if_neg (by simp [hne, hmem]),
        if_pos (by
          simp only [dateKeywords, List.any_cons, List.any_nil, Bool.or_eq_true]
          rcases hk with h | h | h <;> simp [h])]
    have hnum : is_numeric (Cell.str s) = false := by
      simp only [is_numeric, cellStr]
      rw [if_neg (by simp [hne, hmem]),
        if_pos (by
          simp only [List.any_cons, List.any_nil, Bool.or_eq_true]
          rcases hk with h | h | h <;> simp [h])]
    simp only [parse_bal_column, cellStr]
    rw [if_neg (by simp [hne, hmem]), if_neg (by simp [hni]),
      if_neg (by simp [hdf]), if_neg (by simp [hnum])]
  · intro q s hIN
    have hne : pyStrip s ≠ "" := by
      intro h0
      rw [h0] at hIN
      exact absurd hIN (by decide)
    have hmem : pyStrip s ∉ placeholders := by
      intro hp
      simp only [placeholders, List.mem_cons, List.not_mem_nil, or_false] at hp
      rcases hp with h | h | h | h | h <;>
        · rw [h] at hIN
          exact absurd hIN (by decide)
    simp only [parse_bal_column, cellStr]
    rw [if_neg (by simp [hne, hmem]), if_pos (by simp [hIN])]

/-- C10 witness: the marker behaviour at the concrete cells `"NO HAPPO"`
(unknown, quantity 7 pending) and `"INHOUSE"` (completed). -/
theorem C10_opaque_marker_cells_witness :
    parse_bal_column (Cell.str "NO HAPPO") 7 =
      some ⟨0, 7, "unknown", Option.none, Option.none, some "NO HAPPO"⟩ ∧
    parse_bal_column (Cell.str "INHOUSE") 7 =
      some ⟨7, 0, "completed", Option.none, some "INHOUSE", Option.none⟩ :=
  ⟨C10_opaque_marker_cells.1 7 "NO HAPPO" (by decide) (by decide) (by decide),
   C10_opaque_marker_cells.2 7 "INHOUSE" (by decide)⟩

/-- C1 counterexample: a numeric balance cell larger than the quantity.
For quantity 5 and cell `"10"` the resolver reports status `pending`
(not `unknown`) with `completed = 0` and `pending = 10`, so
`completed + pending = 10 ≠ 5`. -/
theorem C1_counterexample_pending_exceeds_quantity :
    parse_bal_column (Cell.str "10") 5 =
      some ⟨0, 10, "pending", Option.none, Option.none, Option.none⟩ ∧
    (0 : Int) + 10 ≠ 5 ∧ "pending" ≠ "unknown" :=
  ⟨by decide, by decide, by decide⟩

/-- C1 (amended): for quantity `q ≥ 0`, a stage record with status other
than `unknown` satisfies `completed + pending = q` and
`0 ≤ completed ≤ q`, except when the cell is numeric and its truncated
value lies outside `[0, q]`; in that case `pending` is the truncated value
itself and `completed = max 0 (q - pending)`. -/
theorem C1_amended_stage_invariant (q : Int) (c : Cell) (st : StageStatus)
    (hq : 0 ≤ q) (hres : parse_bal_column c q = some st)
    (hunk : st.status ≠ "unknown") :
    (st.completed + st.pending = q ∧ 0 ≤ st.completed ∧ st.completed ≤ q) ∨
    (∃ x : Rat, cellFloat c = some x ∧ st.pending = ratTrunc x ∧
      (ratTrunc x < 0 ∨ q < ratTrunc x) ∧ st.completed = max 0 (q - ratTrunc x)) := by
  cases c with
  | none =>
    simp only [parse_bal_column] at hres
    cases hres
    dsimp only at hunk ⊢
    exact Or.inl ⟨by omega, by omega, by omega⟩
  | str s =>
    simp only [parse_bal_column] at hres
    split at hres
    · cases hres
      dsimp only
      exact Or.inl ⟨by omega, by omega, by omega⟩
    · split at hres
      · cases hres
        dsimp only
        exact Or.inl ⟨by omega, by omega, by omega⟩
      · split at hres
        · cases hres
          dsimp only
          exact Or.inl ⟨by omega, by omega, by omega⟩
        · split at hres
          · split at hres
            next x heq =>
              cases hres
              dsimp only at hunk ⊢
              by_cases hr : 0 ≤ ratTrunc x ∧ ratTrunc x ≤ q
              · exact Or.inl ⟨by omega, by omega, by omega⟩
              · refine Or.inr ⟨x, ?_, rfl, by omega, rfl⟩
                simp only [cellFloat, cellStr] at heq ⊢
                rw [heq]
            next heq =>
              cases hres
              dsimp only at hunk
              exact absurd rfl hunk
            next heq => exact Option.noConfusion hres
            next heq => exact Option.noConfusion hres
            next heq =>
              cases hres
              dsimp only at hunk
              exact absurd rfl hunk
          · cases hres
            dsimp only at hunk
            exact absurd rfl hunk
  | timestamp y m d =>
    simp only [parse_bal_column] at hres
    split at hres
    · cases hres
      dsimp only
      exact Or.inl ⟨by omega, by omega, by omega⟩
    · split at hres
      · cases hres
        dsimp only
        exact Or.inl ⟨by omega, by omega, by omega⟩
      · split at hres
        · cases hres
          dsimp only
          exact Or.inl ⟨by omega, by omega, by omega⟩
        · split at hres
          · split at hres
            next x heq =>
              cases hres
              dsimp only at hunk ⊢
              by_cases hr : 0 ≤ ratTrunc x ∧ ratTrunc x ≤ q
              · exact Or.inl ⟨by omega, by omega, by omega⟩
              · refine Or.inr ⟨x, ?_, rfl, by omega, rfl⟩
                simp only [cellFloat, cellStr] at heq ⊢
                rw [heq]
            next heq =>
              cases hres
              dsimp only at hunk
              exact absurd rfl hunk
            next heq => exact Option.noConfusion hres
            next heq => exact Option.noConfusion hres
            next heq =>
              cases hres
              dsimp only at hunk
              exact absurd rfl hunk
          · cases hres
            dsimp only at hunk
            exact absurd rfl hunk

/-- C1 witness: the amended invariant at quantity 5 with the in-range
numeric cell `"3"` (completed 2, pending 3, status partial). -/
theorem C1_amended_stage_invariant_witness :
    ((2 : Int) + 3 = 5 ∧ (0 : Int) ≤ 2 ∧ (2 : Int) ≤ 5) ∨
    (∃ x : Rat, cellFloat (Cell.str "3") = some x ∧ (3 : Int) = ratTrunc x ∧
      (ratTrunc x < 0 ∨ 5 < ratTrunc x) ∧ (2 : Int) = max 0 (5 - ratTrunc x)) :=
  C1_amended_stage_invariant 5 (Cell.str "3")
    ⟨2, 3, "partial", Option.none, Option.none, Option.none⟩
    (by decide) (by decide) (by decide)

/-- C2 counterexample: the numeric cell `"2.7"` with quantity 10.  The code
truncates (`int(float(...))`), leaving `pending = 2`, while rounding `2.7`
gives 3; so `remaining = round(n)` fails. -/
theorem C2_counterexample_truncates_not_rounds :
    pyFloat? "2.7" = some (PyFloat.finite (mkRat 27 10)) ∧
    is_numeric (Cell.str "2.7") = true ∧
    parse_bal_column (Cell.str "2.7") 10 =
      some ⟨8, 2, "partial", Option.none, Option.none, Option.none⟩ ∧
    round ((27 : Rat) / 10) = 3 ∧ (2 : Int) ≠ 3 := by
  refine ⟨by decide, by decide, by decide, ?_, by decide⟩
  norm_num [round_eq]

/-- C2 (amended): for a cell classified as Numeric (and not date-shaped)
with finite float value `x`, the resolver truncates toward zero:
`remaining = trunc(x)`, `completed = max 0 (q - remaining)`, and the status
is completed / pending / partial according to `remaining = 0`,
`remaining ≥ q`, otherwise.  (For a bare non-negative integer `n < q` the
truncation is the identity, so `pending = n` exactly.) -/
theorem C2_amended_numeric_resolution (q : Int) (s : String) (x : Rat)
    (_hq : 0 < q)
    (hnum : is_numeric (Cell.str s) = true)
    (hdf : is_date_format (Cell.str s) = false)
    (hx : cellFloat (Cell.str s) = some x) :
    parse_bal_column (Cell.str s) q =
      some ⟨max 0 (q - ratTrunc x), ratTrunc x,
        (if ratTrunc x = 0 then "completed"
         else if q ≤ ratTrunc x then "pending" else "partial"),
        Option.none, Option.none, Option.none⟩ := by
  have hnum0 := hnum
  simp only [is_numeric, cellStr] at hnum
  split at hnum
  · exact Bool.noConfusion hnum
  next h1 =>
    split at hnum
    · exact Bool.noConfusion hnum
    next h2 =>
      simp only [List.any_cons, List.any_nil, Bool.or_eq_true, not_or] at h2
      have hni : ¬ strContains (pyUpper (pyStrip s)) "INHOUSE" = true := h2.1
      simp only [cellFloat, cellStr] at hx
      rcases hpf : pyFloat? (pyStrip s) with _ | pf
      · rw [hpf] at hx
        exact Option.noConfusion hx
      · rw [hpf] at hx
        cases pf with
        | finite x' =>
          have hxx : x' = x := by
            simpa using hx
          subst hxx
          simp only [parse_bal_column, cellStr]
          rw [if_neg h1, if_neg hni, if_neg (by simp [hdf]), if_pos hnum0, hpf]
        | inf => exact Option.noConfusion hx
        | neginf => exact Option.noConfusion hx
        | nan => exact Option.noConfusion hx

/-- C2 witness: the amended rule at quantity 100 and cell `"30"`
(spec scenario A: completed 70, pending 30, partial). -/
theorem C2_amended_numeric_resolution_witness :
    parse_bal_column (Cell.str "30") 100 =
      some ⟨70, 30, "partial", Option.none, Option.none, Option.none⟩ := by
  have h := C2_amended_numeric_resolution 100 "30" (mkRat 30 1)
    (by decide) (by decide) (by decide) (by decide)
  rw [h]
  decide

/-- Truncation of a positive rational is non-negative. -/
theorem ratTrunc_nonneg_of_pos {x : Rat} (hx : 0 < x) : 0 ≤ ratTrunc x := by
  have hnum : 0 ≤ x.num := le_of_lt (Rat.num_pos.mpr hx)
  simp only [ratTrunc, if_pos hnum]
  exact Int.natCast_nonneg _

/-- Truncation of a positive rational is zero exactly when the value is
below one. -/
theorem ratTrunc_eq_zero_iff_lt_one {x : Rat} (hx : 0 < x) :
    ratTrunc x = 0 ↔ x < 1 := by
  have hnum : 0 ≤ x.num := le_of_lt (Rat.num_pos.mpr hx)
  simp only [ratTrunc, if_pos hnum]
  rw [Int.natCast_eq_zero, Nat.div_eq_zero_iff x.den_pos, Rat.lt_one_iff_num_lt_denom]
  omega

/-- A cell failing `is_valid_quantity` (missing cell, non-positive value,
or placeholder text) never produces a value. -/
theorem is_valid_quantity_eq_false (c : Cell)
    (h : c = Cell.none ∨ (∃ x : Rat, cellFloat c = some x ∧ x ≤ 0) ∨
      invalid_quantity_values.contains (pyStrip (cellStr c)) = true) :
    is_valid_quantity c = false := by
  rcases h with hn | h
  · subst hn
    rfl
  cases c with
  | none => rfl
  | str s =>
    simp only [is_valid_quantity, cellStr]
    split
    · rfl
    next hinv =>
      rcases h with ⟨x, hx, hle⟩ | hcont
      · simp only [cellFloat, cellStr] at hx
        rcases hpf : pyFloat? (pyStrip s) with _ | pf
        · simp [hpf] at hx
        · cases pf with
          | finite x' =>
            have hxx : x' = x := by simpa [hpf] using hx
            subst hxx
            exact decide_eq_false (not_lt.mpr hle)
          | inf => simp [hpf] at hx
          | neginf => simp [hpf] at hx
          | nan => simp [hpf] at hx
      · exact absurd hcont hinv
  | timestamp y m d =>
    simp only [is_valid_quantity, cellStr]
    split
    · rfl
    next hinv =>
      rcases h with ⟨x, hx, hle⟩ | hcont
      · simp only [cellFloat, cellStr] at hx
        rcases hpf : pyFloat? (pyStrip (fmtYMD y m d ++ " 00:00:00")) with _ | pf
        · simp [hpf] at hx
        · cases pf with
          | finite x' =>
            have hxx : x' = x := by simpa [hpf] using hx
            subst hxx
            exact decide_eq_false (not_lt.mpr hle)
          | inf => simp [hpf] at hx
          | neginf => simp [hpf] at hx
          | nan => simp [hpf] at hx
      · exact absurd hcont hinv

/-- A row whose quantity cell fails validation is never emitted. -/
theorem normalize_row_none_of_invalid (f : String) (r : RawRow)
    (h : is_valid_quantity r.quantity = false) :
    normalize_row f r = Option.none := by
  simp only [normalize_row]
  split
  · rfl
  · rw [if_pos (by simp [h])]

/-- C3 (amended): every emitted Order has `quantity ≥ 0`, and a zero
quantity arises only from a quantity cell whose float value lies strictly
between 0 and 1 (which `int()` truncates to 0); rows whose quantity cell is
missing, non-positive or a non-numeric placeholder emit no Order. -/
theorem C3_amended_order_quantity :
    (∀ (f : String) (r : RawRow) (o : Order), normalize_row f r = some o →
      0 ≤ o.quantity ∧
      (o.quantity = 0 → ∃ x : Rat, cellFloat r.quantity = some x ∧ 0 < x ∧ x < 1)) ∧
    (∀ (f : String) (r : RawRow),
      (r.quantity = Cell.none ∨
       (∃ x : Rat, cellFloat r.quantity = some x ∧ x ≤ 0) ∨
       invalid_quantity_values.contains (pyStrip (cellStr r.quantity)) = true) →
      normalize_row f r = Option.none) := by
  constructor
  · intro f r o h
    obtain ⟨qc, cu, cm, cdst, ccrd, cso, csc, cc4⟩ := r
    simp only [normalize_row] at h
    split at h
    · exact Option.noConfusion h
    · split at h
      · exact Option.noConfusion h
      next hval =>
        rw [Bool.not_eq_true, ← ne_eq, Bool.ne_false_iff] at hval
        split at h
        · exact Option.noConfusion h
        next qty hint =>
          split at h
          · exact Option.noConfusion h
          · cases h
            dsimp only
            simp only [is_valid_quantity] at hval
            simp only [pyIntOfCell] at hint
            cases qc with
            | none => exact Bool.noConfusion hval
            | str s =>
              simp only [cellStr] at hval hint
              split at hval
              · exact Bool.noConfusion hval
              · rcases hpf : pyFloat? (pyStrip s) with _ | pf
                · rw [hpf] at hval
                  exact Bool.noConfusion hval
                · rw [hpf] at hval hint
                  cases pf with
                  | finite x =>
                    have hx : (0 : Rat) < x := of_decide_eq_true hval
                    have hq : qty = ratTrunc x := by simpa using hint.symm
                    subst hq
                    refine ⟨ratTrunc_nonneg_of_pos hx, fun h0 => ⟨x, ?_, hx, ?_⟩⟩
                    · simp [cellFloat, cellStr, hpf]
                    · exact (ratTrunc_eq_zero_iff_lt_one hx).mp h0
                  | inf => simp at hint
                  | neginf => exact Bool.noConfusion hval
                  | nan => exact Bool.noConfusion hval
            | timestamp y m dd =>
              simp only [cellStr] at hval hint
              split at hval
              · exact Bool.noConfusion hval
              · rcases hpf : pyFloat? (pyStrip (fmtYMD y m dd ++ " 00:00:00")) with _ | pf
                · rw [hpf] at hval
                  exact Bool.noConfusion hval
                · rw [hpf] at hval hint
                  cases pf with
                  | finite x =>
                    have hx : (0 : Rat) < x := of_decide_eq_true hval
                    have hq : qty = ratTrunc x := by simpa using hint.symm
                    subst hq
                    refine ⟨ratTrunc_nonneg_of_pos hx, fun h0 => ⟨x, ?_, hx, ?_⟩⟩
                    · simp [cellFloat, cellStr, hpf]
                    · exact (ratTrunc_eq_zero_iff_lt_one hx).mp h0
                  | inf => simp at hint
                  | neginf => exact Bool.noConfusion hval
                  | nan => exact Bool.noConfusion hval
  · intro f r h
    exact normalize_row_none_of_invalid f r
      (is_valid_quantity_eq_false r.quantity h)

/-- C3 witness: a concrete emitted row (quantity cell `"100"`, quantity
100 ≥ 0) and a concrete rejected row (quantity cell `"TBD"`). -/
theorem C3_amended_order_quantity_witness :
    ((0 : Int) ≤ 100 ∧
      ((100 : Int) = 0 →
        ∃ x : Rat, cellFloat (Cell.str "100") = some x ∧ 0 < x ∧ x < 1)) ∧
    normalize_row "A"
      ⟨Cell.str "TBD", Cell.str "U1", Cell.str "M1", Cell.none,
        Cell.none, Cell.none, Cell.none, Cell.none⟩ = Option.none :=
  ⟨C3_amended_order_quantity.1 "A"
      ⟨Cell.str "100", Cell.str "U1", Cell.str "M1", Cell.none,
        Cell.none, Cell.none, Cell.none, Cell.none⟩
      ⟨"A", "U1", "M1", "Unknown", 100, "", "", "", Option.none⟩ (by decide),
   C3_amended_order_quantity.2 "A"
      ⟨Cell.str "TBD", Cell.str "U1", Cell.str "M1", Cell.none,
        Cell.none, Cell.none, Cell.none, Cell.none⟩
      (Or.inr (Or.inr (by decide)))⟩

/-- C3 counterexample: the quantity cell `"0.5"` passes validation
(`float("0.5") > 0`) but truncates to quantity 0, so an Order with
`quantity = 0` is emitted. -/
theorem C3_counterexample_zero_quantity_emitted :
    normalize_row "A"
      ⟨Cell.str "0.5", Cell.str "U1", Cell.str "M1", Cell.str "USA",
        Cell.none, Cell.none, Cell.none, Cell.none⟩ =
      some ⟨"A", "U1", "M1", "USA", 0, "", "", "", Option.none⟩ ∧
    ¬ (0 : Int) > 0 :=
  ⟨by decide, by decide⟩

/-- A date-shaped cell always has a parse result (`parse_date_to_string`
returns `None` only for missing cells, which are never date-shaped). -/
theorem parse_date_some_of_date_format (c : Cell)
    (h : is_date_format c = true) :
    ∃ v, parse_date_to_string c = some v := by
  cases c with
  | none => exact Bool.noConfusion h
  | timestamp y m d => exact ⟨_, rfl⟩
  | str s =>
    simp only [parse_date_to_string]
    rcases h1 : matchMDslash (pyStrip s).data with _ | p1
    · rcases h2 : matchYMDdot (pyStrip s).data with _ | p2
      · rcases h3 : matchYMDdash (pyStrip s).data with _ | p3
        · exact ⟨_, rfl⟩
        · cases p3 with
          | mk y p => cases p with | mk mo da => exact ⟨_, rfl⟩
      · cases p2 with
        | mk y p => cases p with | mk mo da => exact ⟨_, rfl⟩
    · cases p1 with
      | mk mo da => exact ⟨_, rfl⟩

/-- C8 counterexample: a CRD cell holding the non-date placeholder text
`"TBD"` is copied verbatim into the Order's CRD field instead of being
normalized to absent. -/
theorem C8_counterexample_crd_garbage_copied :
    (normalize_row "A"
      ⟨Cell.str "100", Cell.str "U1", Cell.str "M1", Cell.none,
        Cell.str "TBD", Cell.none, Cell.none, Cell.none⟩).map Order.crd =
      some "TBD" ∧
    is_date_format (Cell.str "TBD") = false ∧ ("TBD" : String) ≠ "" :=
  ⟨by decide, by decide, by decide⟩

/-- C8 (amended): the CRD field of a retained Order is empty (absent cell or
the `00:00:00` placeholder), or the `parse_date_to_string` image of a
date-shaped cell (which for the `MM-DD` shape is the text unchanged, not
canonical), or — for any other present cell — the cell's trimmed text
copied verbatim.  Only the zero-time placeholder is normalized to absent. -/
theorem C8_amended_crd_normalization (f : String) (r : RawRow) (o : Order)
    (h : normalize_row f r = some o) :
    o.crd = "" ∨
    (is_date_format r.crd = true ∧ parse_date_to_string r.crd = some o.crd) ∨
    (is_date_format r.crd = false ∧ o.crd = cellStrOrEmpty r.crd) := by
  obtain ⟨qc, cu, cm, cdst, ccrd, cso, csc, cc4⟩ := r
  simp only [normalize_row] at h
  split at h
  · exact Option.noConfusion h
  · split at h
    · exact Option.noConfusion h
    · split at h
      · exact Option.noConfusion h
      next qty hint =>
        split at h
        · exact Option.noConfusion h
        · cases h
          dsimp only
          split
          · exact Or.inl rfl
          · split
            next hdf =>
              refine Or.inr (Or.inl ⟨hdf, ?_⟩)
              obtain ⟨v, hv⟩ := parse_date_some_of_date_format ccrd hdf
              rw [hv]
              rfl
            next hdf =>
              exact Or.inr (Or.inr ⟨by simpa using hdf, rfl⟩)

/-- C8 witness: the amended CRD rule at a concrete row whose CRD cell is
the date-shaped text `"12/20"`, normalized to `"2025-12-20"`. -/
theorem C8_amended_crd_normalization_witness :
    ("2025-12-20" : String) = "" ∨
    (is_date_format (Cell.str "12/20") = true ∧
      parse_date_to_string (Cell.str "12/20") = some "2025-12-20") ∨
    (is_date_format (Cell.str "12/20") = false ∧
      ("2025-12-20" : String) = cellStrOrEmpty (Cell.str "12/20")) :=
  C8_amended_crd_normalization "A"
    ⟨Cell.str "100", Cell.str "U1", Cell.str "M1", Cell.none,
      Cell.str "12/20", Cell.none, Cell.none, Cell.none⟩
    ⟨"A", "U1", "M1", "Unknown", 100, "2025-12-20", "2025-12", "", Option.none⟩
    (by decide)

/-! ## Decimal padding and lexicographic order -/

/-- Digit characters are decimal digits. -/
theorem digitChar_isDigit : ∀ j < 10, (digitChar j).isDigit = true := by decide

/-- Code point of a digit character. -/
theorem digitChar_toNat : ∀ j < 10, (digitChar j).toNat = 48 + j := by decide

/-- Order of digit characters mirrors the order of their values. -/
theorem digitChar_lt_iff : ∀ i < 10, ∀ j < 10,
    (digitChar i < digitChar j ↔ i < j) := by decide

/-- A padded numeral has exactly `k` characters. -/
theorem padNum_length (k : Nat) : ∀ n, (padNum k n).length = k := by
  induction k with
  | zero => intro n; rfl
  | succ k ih => intro n; simp [padNum, ih]

/-- Every character of a padded numeral is a digit. -/
theorem padNum_digits (k : Nat) :
    ∀ n, n < 10 ^ k → ∀ c ∈ padNum k n, c.isDigit = true := by
  induction k with
  | zero => intro n _ c hc; simp [padNum] at hc
  | succ k ih =>
    intro n hn c hc
    have hP : 0 < 10 ^ k := pow_pos (by norm_num) k
    have hpow : (10 : Nat) ^ (k + 1) = 10 * 10 ^ k := by ring
    simp only [padNum, List.mem_cons] at hc
    rcases hc with hc | hc
    · subst hc
      refine digitChar_isDigit _ ?_
      rw [Nat.div_lt_iff_lt_mul hP]
      omega
    · exact ih (n % 10 ^ k) (Nat.mod_lt _ hP) c hc

/-- Reading back a padded numeral under `digitsToNat`'s fold. -/
theorem padNum_foldl (k : Nat) :
    ∀ n a, n < 10 ^ k →
      (padNum k n).foldl (fun acc c => 10 * acc + (c.toNat - 48)) a =
        a * 10 ^ k + n := by
  induction k with
  | zero =>
    intro n a hn
    norm_num at hn
    subst hn
    simp [padNum]
  | succ k ih =>
    intro n a hn
    have hP : 0 < 10 ^ k := pow_pos (by norm_num) k
    have hpow : (10 : Nat) ^ (k + 1) = 10 * 10 ^ k := by ring
    have hq : n / 10 ^ k < 10 := by
      rw [Nat.div_lt_iff_lt_mul hP]
      omega
    have hr : n % 10 ^ k < 10 ^ k := Nat.mod_lt _ hP
    simp only [padNum, List.foldl_cons]
    rw [digitChar_toNat _ hq, ih (n % 10 ^ k) _ hr]
    have hsub : 48 + n / 10 ^ k - 48 = n / 10 ^ k := Nat.add_sub_cancel_left 48 (n / 10 ^ k)
    rw [hsub]
    have hdm : 10 ^ k * (n / 10 ^ k) + n % 10 ^ k = n := Nat.div_add_mod n (10 ^ k)
    calc (10 * a + n / 10 ^ k) * 10 ^ k + n % 10 ^ k
        = a * (10 * 10 ^ k) + (10 ^ k * (n / 10 ^ k) + n % 10 ^ k) := by ring
      _ = a * (10 * 10 ^ k) + n := by rw [hdm]
      _ = a * 10 ^ (k + 1) + n := by rw [hpow]

/-- `digitsToNat` inverts `padNum`. -/
theorem digitsToNat_padNum (k n : Nat) (hn : n < 10 ^ k) :
    digitsToNat (padNum k n) = n := by
  have h := padNum_foldl k n 0 hn
  simpa [digitsToNat] using h

/-- `splitDigits` consumes a run of digits followed by a non-digit. -/
theorem splitDigits_append (ds : List Char) (c : Char) (rest : List Char)
    (hds : ∀ x ∈ ds, x.isDigit = true) (hc : c.isDigit = false) :
    splitDigits (ds ++ c :: rest) = (ds, c :: rest) := by
  induction ds with
  | nil => simp [splitDigits, hc]
  | cons d ds ih =>
    have hd : d.isDigit = true := hds d (by simp)
    have h := ih (fun x hx => hds x (by simp [hx]))
    simp only [List.cons_append, splitDigits, hd, if_true]
    rw [show splitDigits (ds.append (c :: rest)) = (ds, c :: rest) from h]

/-- `splitDigits` consumes a trailing run of digits entirely. -/
theorem splitDigits_all (ds : List Char)
    (hds : ∀ x ∈ ds, x.isDigit = true) :
    splitDigits ds = (ds, []) := by
  induction ds with
  | nil => rfl
  | cons d ds ih =>
    have hd : d.isDigit = true := hds d (by simp)
    have h := ih (fun x hx => hds x (by simp [hx]))
    simp only [splitDigits, hd, if_true]
    rw [show splitDigits ds = (ds, ([] : List Char)) from h]

/-- Python's lexicographic string order on equal-width zero-padded decimal
blocks agrees with numeric order, block by block. -/
theorem pyStrLtChars_padNum (k : Nat) :
    ∀ (a b : Nat) (xs ys : List Char), a < 10 ^ k → b < 10 ^ k →
    pyStrLtChars (padNum k a ++ xs) (padNum k b ++ ys) =
      (if a < b then true else if b < a then false else pyStrLtChars xs ys) := by
  induction k with
  | zero =>
    intro a b xs ys ha hb
    norm_num at ha hb
    subst ha
    subst hb
    simp [padNum]
  | succ k ih =>
    intro a b xs ys ha hb
    have hP : 0 < 10 ^ k := pow_pos (by norm_num) k
    have hpow : (10 : Nat) ^ (k + 1) = 10 * 10 ^ k := by ring
    have hqa : a / 10 ^ k < 10 := by
      rw [Nat.div_lt_iff_lt_mul hP]
      omega
    have hqb : b / 10 ^ k < 10 := by
      rw [Nat.div_lt_iff_lt_mul hP]
      omega
    have hra : a % 10 ^ k < 10 ^ k := Nat.mod_lt _ hP
    have hrb : b % 10 ^ k < 10 ^ k := Nat.mod_lt _ hP
    have hdma : 10 ^ k * (a / 10 ^ k) + a % 10 ^ k = a := Nat.div_add_mod a (10 ^ k)
    have hdmb : 10 ^ k * (b / 10 ^ k) + b % 10 ^ k = b := Nat.div_add_mod b (10 ^ k)
    simp only [padNum, List.cons_append, pyStrLtChars]
    rcases Nat.lt_trichotomy (a / 10 ^ k) (b / 10 ^ k) with hq | hq | hq
    · have hmul : 10 ^ k * (a / 10 ^ k + 1) ≤ 10 ^ k * (b / 10 ^ k) :=
        Nat.mul_le_mul_left _ (by omega)
      have hab : a < b := by
        have hexp : 10 ^ k * (a / 10 ^ k + 1) = 10 ^ k * (a / 10 ^ k) + 10 ^ k := by ring
        omega
      rw [if_pos ((digitChar_lt_iff _ hqa _ hqb).mpr hq), if_pos hab]
    · have h1 : ¬ digitChar (a / 10 ^ k) < digitChar (b / 10 ^ k) := by
        rw [digitChar_lt_iff _ hqa _ hqb]
        omega
      have h2 : ¬ digitChar (b / 10 ^ k) < digitChar (a / 10 ^ k) := by
        rw [digitChar_lt_iff _ hqb _ hqa]
        omega
      rw [← hq] at hdmb
      have hihs := ih (a % 10 ^ k) (b % 10 ^ k) xs ys hra hrb
      rw [if_neg h1, if_neg h2,
        show pyStrLtChars ((padNum k (a % 10 ^ k)).append xs)
            ((padNum k (b % 10 ^ k)).append ys) =
          (if a % 10 ^ k < b % 10 ^ k then true
           else if b % 10 ^ k < a % 10 ^ k then false
           else pyStrLtChars xs ys) from hihs]
      have e1 : (a % 10 ^ k < b % 10 ^ k) = (a < b) := propext (by omega)
      have e2 : (b % 10 ^ k < a % 10 ^ k) = (b < a) := propext (by omega)
      simp only [e1, e2]
    · have hmul : 10 ^ k * (b / 10 ^ k + 1) ≤ 10 ^ k * (a / 10 ^ k) :=
        Nat.mul_le_mul_left _ (by omega)
      have hba : b < a := by
        have hexp : 10 ^ k * (b / 10 ^ k + 1) = 10 ^ k * (b / 10 ^ k) + 10 ^ k := by ring
        omega
      have h1 : ¬ digitChar (a / 10 ^ k) < digitChar (b / 10 ^ k) := by
        rw [digitChar_lt_iff _ hqa _ hqb]
        omega
      rw [if_neg h1, if_pos ((digitChar_lt_iff _ hqb _ hqa).mpr hq),
        if_neg (show ¬ a < b by omega), if_pos hba]

/-! ## Calendar arithmetic -/

/-- Months have between 28 and 31 days. -/
theorem monthLen_le (leap : Bool) (m : Nat) : monthLen leap m ≤ 31 := by
  unfold monthLen
  split
  · split <;> omega
  · split <;> omega

/-- Month-offset plus month-length is monotone below the next month's
offset (finite check over the twelve months and the leap flag). -/
theorem daysBeforeMonth_step : ∀ leap : Bool, ∀ m1 < 13, ∀ m2 < 13, 1 ≤ m1 → m1 < m2 →
    daysBeforeMonth leap m1 + monthLen leap m1 ≤ daysBeforeMonth leap m2 := by
  decide

set_option maxHeartbeats 1000000 in
/-- A month offset plus its month length never exceeds the year length. -/
theorem daysBeforeMonth_year : ∀ leap : Bool, ∀ m < 13,
    daysBeforeMonth leap m + monthLen leap m ≤ 365 + (if leap then 1 else 0) := by
  decide

set_option maxHeartbeats 4000000 in
/-- The year-offset recurrence: one year adds 365 or 366 days. -/
theorem daysBeforeYear_step (y : Nat) (hy : 1 ≤ y) :
    daysBeforeYear (y + 1) = daysBeforeYear y + 365 + (if isLeap y then 1 else 0) := by
  cases hL : isLeap y with
  | true =>
    have hcond : (y % 4 = 0 ∧ y % 100 ≠ 0) ∨ y % 400 = 0 := by
      simpa [isLeap] using hL
    rw [if_pos rfl]
    unfold daysBeforeYear
    omega
  | false =>
    have hcond : ¬ ((y % 4 = 0 ∧ y % 100 ≠ 0) ∨ y % 400 = 0) := by
      simpa [isLeap] using hL
    rw [if_neg Bool.false_ne_true]
    unfold daysBeforeYear
    omega

/-- Year offsets are monotone. -/
theorem daysBeforeYear_mono (y1 y2 : Nat) (hy1 : 1 ≤ y1) (h : y1 < y2) :
    daysBeforeYear (y1 + 1) ≤ daysBeforeYear y2 := by
  induction y2 with
  | zero => omega
  | succ n ih =>
    rcases Nat.lt_or_ge y1 n with h2 | h2
    · have hle := ih h2
      have hstep := daysBeforeYear_step n (by omega)
      generalize (if isLeap n then 1 else 0) = E at hstep
      omega
    · have heq : y1 = n := by omega
      subst heq
      exact le_refl _

/-- The day number is strictly monotone with respect to the lexicographic
order on valid dates. -/
theorem dayNumber_lt_of_lex (y1 m1 d1 y2 m2 d2 : Nat)
    (hv1 : validDate y1 m1 d1) (hv2 : validDate y2 m2 d2)
    (h : y1 < y2 ∨ (y1 = y2 ∧ (m1 < m2 ∨ (m1 = m2 ∧ d1 < d2)))) :
    dayNumber y1 m1 d1 < dayNumber y2 m2 d2 := by
  obtain ⟨hy1a, hy1b, hm1a, hm1b, hd1a, hd1b⟩ := hv1
  obtain ⟨hy2a, hy2b, hm2a, hm2b, hd2a, hd2b⟩ := hv2
  rcases h with hy | ⟨hy, h⟩
  · have hstep := daysBeforeYear_step y1 hy1a
    have hcap := daysBeforeMonth_year (isLeap y1) m1 (by omega)
    have hmono := daysBeforeYear_mono y1 y2 hy1a hy
    unfold dayNumber
    generalize (if isLeap y1 then 1 else 0) = E at hstep hcap
    omega
  · subst hy
    rcases h with hm | ⟨hm, hd⟩
    · have hstep := daysBeforeMonth_step (isLeap y1) m1 (by omega) m2 (by omega) hm1a hm
      unfold dayNumber
      omega
    · subst hm
      unfold dayNumber
      omega

/-- Strict monotonicity upgraded to an order equivalence. -/
theorem dayNumber_lt_iff (y1 m1 d1 y2 m2 d2 : Nat)
    (hv1 : validDate y1 m1 d1) (hv2 : validDate y2 m2 d2) :
    dayNumber y1 m1 d1 < dayNumber y2 m2 d2 ↔
      (y1 < y2 ∨ (y1 = y2 ∧ (m1 < m2 ∨ (m1 = m2 ∧ d1 < d2)))) := by
  constructor
  · intro hlt
    by_contra hc
    push_neg at hc
    obtain ⟨hcy, hcr⟩ := hc
    rcases Nat.lt_trichotomy y1 y2 with hy | hy | hy
    · omega
    · obtain ⟨hcm, hcd⟩ := hcr hy
      rcases Nat.lt_trichotomy m1 m2 with hm | hm | hm
      · omega
      · have hdle := hcd hm
        rcases Nat.lt_trichotomy d1 d2 with hd | hd | hd
        · omega
        · subst hy
          subst hm
          subst hd
          exact absurd hlt (lt_irrefl _)
        · have h2 := dayNumber_lt_of_lex y2 m2 d2 y1 m1 d1 hv2 hv1
            (Or.inr ⟨hy.symm, Or.inr ⟨hm.symm, hd⟩⟩)
          omega
      · have h2 := dayNumber_lt_of_lex y2 m2 d2 y1 m1 d1 hv2 hv1
          (Or.inr ⟨hy.symm, Or.inl hm⟩)
        omega
    · have h2 := dayNumber_lt_of_lex y2 m2 d2 y1 m1 d1 hv2 hv1 (Or.inl hy)
      omega
  · exact dayNumber_lt_of_lex y1 m1 d1 y2 m2 d2 hv1 hv2

/-! ## Canonical date strings -/

/-- The character list behind a canonical date string. -/
theorem fmtYMD_data (y m d : Nat) :
    (fmtYMD y m d).data = padNum 4 y ++ '-' :: (padNum 2 m ++ '-' :: padNum 2 d) := rfl

/-- A canonical date string is not empty. -/
theorem fmtYMD_ne_empty (y m d : Nat) : fmtYMD y m d ≠ "" := by
  intro h
  have hlen := congrArg (fun s : String => s.data.length) h
  simp only [fmtYMD_data, List.length_append, List.length_cons, padNum_length] at hlen
  simp at hlen

/-- A canonical date string is not the zero-time placeholder. -/
theorem fmtYMD_ne_placeholder (y m d : Nat) : fmtYMD y m d ≠ "00:00:00" := by
  intro h
  have hlen := congrArg (fun s : String => s.data.length) h
  simp only [fmtYMD_data, List.length_append, List.length_cons, padNum_length] at hlen
  simp at hlen

/-- A digit character is untouched by the dot-to-dash replacement. -/
theorem digit_keep {c : Char} (h : c.isDigit = true) :
    (if c = '.' then '-' else c) = c := by
  have hne : c ≠ '.' := by
    intro he
    rw [he] at h
    exact Bool.noConfusion h
  rw [if_neg hne]

/-- The dashboard's dot-to-dash replacement fixes canonical date strings. -/
theorem dotToDash_fmtYMD (y m d : Nat) (hy : y < 10 ^ 4) (hm : m < 10 ^ 2)
    (hd : d < 10 ^ 2) : dotToDash (fmtYMD y m d) = fmtYMD y m d := by
  have hyd := padNum_digits 4 y hy
  have hmd := padNum_digits 2 m hm
  have hdd := padNum_digits 2 d hd
  unfold dotToDash
  rw [show (fmtYMD y m d).data = padNum 4 y ++ '-' :: (padNum 2 m ++ '-' :: padNum 2 d)
    from rfl]
  have hall : ∀ c ∈ padNum 4 y ++ '-' :: (padNum 2 m ++ '-' :: padNum 2 d),
      (if c = '.' then '-' else c) = c := by
    intro c hc
    simp only [List.mem_append, List.mem_cons] at hc
    rcases hc with hc | hc | hc
    · exact digit_keep (hyd c hc)
    · subst hc
      rfl
    · rcases hc with hc | hc | hc
      · exact digit_keep (hmd c hc)
      · subst hc
        rfl
      · exact digit_keep (hdd c hc)
  rw [List.map_congr_left hall]
  rfl

/-- Parsing a canonical date string recovers its components. -/
theorem matchYMDdash_fmtYMD (y m d : Nat) (hy : y < 10 ^ 4) (hm : m < 10 ^ 2)
    (hd : d < 10 ^ 2) :
    matchYMDdash (fmtYMD y m d).data = some (y, m, d) := by
  have hyd := padNum_digits 4 y hy
  have hmd := padNum_digits 2 m hm
  have hdd := padNum_digits 2 d hd
  have h1 : splitDigits (padNum 4 y ++ '-' :: (padNum 2 m ++ '-' :: padNum 2 d)) =
      (padNum 4 y, '-' :: (padNum 2 m ++ '-' :: padNum 2 d)) :=
    splitDigits_append _ _ _ hyd (by decide)
  have h2 : splitDigits (padNum 2 m ++ '-' :: padNum 2 d) =
      (padNum 2 m, '-' :: padNum 2 d) :=
    splitDigits_append _ _ _ hmd (by decide)
  have h3 : splitDigits (padNum 2 d) = (padNum 2 d, []) := splitDigits_all _ hdd
  rw [fmtYMD_data]
  simp only [matchYMDdash, h1, h2, h3, padNum_length]
  rw [digitsToNat_padNum 4 y hy, digitsToNat_padNum 2 m hm, digitsToNat_padNum 2 d hd]
  norm_num

/-- The modelled JS date parser maps a canonical valid date string to its
day number. -/
theorem jsDate_fmtYMD (y m d : Nat) (hv : validDate y m d) :
    jsDate? (fmtYMD y m d) = some (dayNumber y m d) := by
  obtain ⟨h1, h2, h3, h4, h5, h6⟩ := hv
  have hmono := monthLen_le (isLeap y) m
  unfold jsDate?
  rw [matchYMDdash_fmtYMD y m d (by norm_num; omega) (by norm_num; omega)
    (by norm_num; omega)]
  show (if validDate y m d then some (dayNumber y m d) else Option.none) =
    some (dayNumber y m d)
  rw [if_pos ⟨h1, h2, h3, h4, h5, h6⟩]

/-- Python's lexicographic comparison of two canonical valid date strings
coincides with the order of their day numbers. -/
theorem pyStrLt_fmtYMD_eq (y1 m1 d1 y2 m2 d2 : Nat)
    (hv1 : validDate y1 m1 d1) (hv2 : validDate y2 m2 d2) :
    pyStrLt (fmtYMD y1 m1 d1) (fmtYMD y2 m2 d2) =
      decide (dayNumber y1 m1 d1 < dayNumber y2 m2 d2) := by
  have hb1 : y1 < 10 ^ 4 := by have := hv1.2.1; norm_num; omega
  have hb2 : y2 < 10 ^ 4 := by have := hv2.2.1; norm_num; omega
  have hm1 : m1 < 10 ^ 2 := by have := hv1.2.2.2.1; norm_num; omega
  have hm2 : m2 < 10 ^ 2 := by have := hv2.2.2.2.1; norm_num; omega
  have hd1 : d1 < 10 ^ 2 := by
    have h6 := hv1.2.2.2.2.2
    have := monthLen_le (isLeap y1) m1
    norm_num
    omega
  have hd2 : d2 < 10 ^ 2 := by
    have h6 := hv2.2.2.2.2.2
    have := monthLen_le (isLeap y2) m2
    norm_num
    omega
  have hdash : ∀ r1 r2 : List Char,
      pyStrLtChars ('-' :: r1) ('-' :: r2) = pyStrLtChars r1 r2 := by
    intro r1 r2
    simp only [pyStrLtChars]
    rw [if_neg (lt_irrefl _), if_neg (lt_irrefl _)]
  unfold pyStrLt
  rw [fmtYMD_data, fmtYMD_data,
    pyStrLtChars_padNum 4 y1 y2 _ _ hb1 hb2, hdash,
    pyStrLtChars_padNum 2 m1 m2 _ _ hm1 hm2, hdash,
    ← List.append_nil (padNum 2 d1), ← List.append_nil (padNum 2 d2),
    pyStrLtChars_padNum 2 d1 d2 _ _ hd1 hd2]
  rw [show pyStrLtChars ([] : List Char) [] = false from rfl]
  have hiff := dayNumber_lt_iff y1 m1 d1 y2 m2 d2 hv1 hv2
  have hiff' := dayNumber_lt_iff y2 m2 d2 y1 m1 d1 hv2 hv1
  rcases Nat.lt_trichotomy y1 y2 with hy | hy | hy
  · rw [if_pos hy]
    exact (decide_eq_true (hiff.mpr (Or.inl hy))).symm
  · subst hy
    rw [if_neg (lt_irrefl _), if_neg (lt_irrefl _)]
    rcases Nat.lt_trichotomy m1 m2 with hm | hm | hm
    · rw [if_pos hm]
      exact (decide_eq_true (hiff.mpr (Or.inr ⟨rfl, Or.inl hm⟩))).symm
    · subst hm
      rw [if_neg (lt_irrefl _), if_neg (lt_irrefl _)]
      rcases Nat.lt_trichotomy d1 d2 with hd | hd | hd
      · rw [if_pos hd]
        exact (decide_eq_true (hiff.mpr (Or.inr ⟨rfl, Or.inr ⟨rfl, hd⟩⟩))).symm
      · subst hd
        rw [if_neg (lt_irrefl _), if_neg (lt_irrefl _)]
        symm
        rw [decide_eq_false_iff_not]
        exact lt_irrefl _
      · rw [if_neg (by omega : ¬ d1 < d2), if_pos hd]
        symm
        rw [decide_eq_false_iff_not]
        intro hcon
        have h2 := hiff'.mpr (Or.inr ⟨rfl, Or.inr ⟨rfl, hd⟩⟩)
        omega
    · rw [if_neg (by omega : ¬ m1 < m2), if_pos hm]
      symm
      rw [decide_eq_false_iff_not]
      intro hcon
      have h2 := hiff'.mpr (Or.inr ⟨rfl, Or.inl hm⟩)
      omega
  · rw [if_neg (by omega : ¬ y1 < y2), if_pos hy]
    symm
    rw [decide_eq_false_iff_not]
    intro hcon
    have h2 := hiff'.mpr (Or.inl hy)
    omega

/-- C9 counterexample: a fully shipped record with SDD two days after CRD.
The report generator (`is_delayed_record`) calls it delayed because it never
looks at warehouse-out completion; the dashboard rule (`new_isDelayed`) does
not. -/
theorem C9_counterexample_report_dashboard_differ :
    is_delayed_record ⟨"2025-12-20", "2025-12-22", Option.none, 50, 50⟩ = true ∧
    new_isDelayed ⟨"2025-12-20", "2025-12-22", Option.none, 50, 50⟩ = false :=
  ⟨by decide, by decide⟩

/-- C9 (amended): the two delay implementations differ in general (the
report generator ignores warehouse-out completion and the zero-time
placeholder and compares the date strings lexicographically), but they
agree on every record whose two dates are canonical `YYYY-MM-DD` texts of
valid calendar dates and whose warehouse-out stage is incomplete. -/
theorem C9_amended_delay_rules_agree (r : DashRecord) (y1 m1 d1 y2 m2 d2 : Nat)
    (hcrd : r.crd = fmtYMD y1 m1 d1) (hsdd : r.sddValue = fmtYMD y2 m2 d2)
    (hv1 : validDate y1 m1 d1) (hv2 : validDate y2 m2 d2)
    (hwh : r.whOutCompleted < r.quantity) :
    is_delayed_record r = new_isDelayed r := by
  obtain ⟨rc, rs, rc4, rw0, rq⟩ := r
  dsimp only at hcrd hsdd hwh
  subst hcrd
  subst hsdd
  have hb1y : y1 < 10 ^ 4 := by have := hv1.2.1; norm_num; omega
  have hb2y : y2 < 10 ^ 4 := by have := hv2.2.1; norm_num; omega
  have hb1m : m1 < 10 ^ 2 := by have := hv1.2.2.2.1; norm_num; omega
  have hb2m : m2 < 10 ^ 2 := by have := hv2.2.2.2.1; norm_num; omega
  have hb1d : d1 < 10 ^ 2 := by
    have h6 := hv1.2.2.2.2.2
    have := monthLen_le (isLeap y1) m1
    norm_num
    omega
  have hb2d : d2 < 10 ^ 2 := by
    have h6 := hv2.2.2.2.2.2
    have := monthLen_le (isLeap y2) m2
    norm_num
    omega
  unfold is_delayed_record new_isDelayed
  dsimp only
  rw [if_pos ⟨fmtYMD_ne_empty y1 m1 d1, fmtYMD_ne_empty y2 m2 d2⟩]
  rw [if_neg (by
    push_neg
    exact ⟨fmtYMD_ne_empty y2 m2 d2, fmtYMD_ne_empty y1 m1 d1,
      fmtYMD_ne_placeholder y2 m2 d2, fmtYMD_ne_placeholder y1 m1 d1⟩)]
  rw [if_neg (by omega : ¬ rq ≤ rw0)]
  by_cases hc4 : optTruthy rc4 = true
  · rw [if_pos hc4, hc4]
    simp
  · rw [if_neg hc4]
    rw [Bool.not_eq_true] at hc4
    rw [dotToDash_fmtYMD y2 m2 d2 hb2y hb2m hb2d,
      dotToDash_fmtYMD y1 m1 d1 hb1y hb1m hb1d,
      jsDate_fmtYMD y2 m2 d2 hv2, jsDate_fmtYMD y1 m1 d1 hv1]
    show (pyStrLt (fmtYMD y1 m1 d1) (fmtYMD y2 m2 d2) && ! optTruthy rc4) =
      decide (dayNumber y1 m1 d1 < dayNumber y2 m2 d2)
    rw [hc4, Bool.not_false, Bool.and_true]
    exact pyStrLt_fmtYMD_eq y1 m1 d1 y2 m2 d2 hv1 hv2

/-- C9 witness: the agreement at a concrete incomplete record with
CRD 2025-12-20 and SDD 2025-12-22 (both rules report delayed). -/
theorem C9_amended_delay_rules_agree_witness :
    is_delayed_record ⟨"2025-12-20", "2025-12-22", Option.none, 0, 50⟩ =
      new_isDelayed ⟨"2025-12-20", "2025-12-22", Option.none, 0, 50⟩ :=
  C9_amended_delay_rules_agree ⟨"2025-12-20", "2025-12-22", Option.none, 0, 50⟩
    2025 12 20 2025 12 22 (by decide) (by decide) (by decide) (by decide) (by decide)

end LoadPlan
